import Mathlib

/-!
Verification development for the sapthame/saptha multi-agent orchestrator.

Shallow embedding of:
- `sapthame/protocol/state_manager.py` (task lifecycle state manager),
- `sapthame/orchestrator/state_managers/scratchpad.py` and `todo.py`,
- `sapthame/orchestrator/actions/parser.py` and `handler.py`,
- `sapthame/orchestrator/turn_executor.py`,
- `saptha/core/orchestrator.py` (sequential/parallel coordination),
- `saptha/protocol/a2a_client.py` (send_message with tenacity retry).

Python dictionaries are modelled as insertion-ordered association lists,
Python sets as `Finset String`, Python exceptions as `Except`, and the
wall clock as an explicit parameter.  External collaborators (HTTP
transport, the XML field extractor of the standard library, the remote
model) are modelled at their interface, restricted to the shapes the
source actually feeds them.
-/

/-- The whitespace characters stripped by Python `str.strip()` and matched
by the regex class `\s` (ASCII range). -/
def isPySpace (c : Char) : Bool :=
  c = ' ' || c = '\t' || c = '\n' || c = '\r' || c = '\x0b' || c = '\x0c'

/-- Model of Python `str.strip()`: remove leading and trailing whitespace. -/
def pyStrip (s : String) : String :=
  ⟨((s.data.dropWhile isPySpace).reverse.dropWhile isPySpace).reverse⟩

/-- Model of Python list slicing `l[i:]` for an arbitrary integer start index. -/
def pySliceFrom (l : List α) (i : Int) : List α :=
  if i < 0 then l.drop (l.length + i).toNat else l.drop i.toNat

/-- Model of Python `sep.join(parts)`. -/
def pyJoin (sep : String) : List String → String
  | [] => ""
  | [x] => x
  | x :: y :: xs => x ++ sep ++ pyJoin sep (y :: xs)

/-- Model of a Python `dict` update `d[k] = v`: replace in place if the key
is present (keeping insertion order), otherwise append. -/
def dictInsert (l : List (String × α)) (k : String) (v : α) : List (String × α) :=
  match l with
  | [] => [(k, v)]
  | (k', v') :: rest => if k' = k then (k, v) :: rest else (k', v') :: dictInsert rest k v

/-- Model of Python `d.get(k)`. -/
def dictGet (l : List (String × α)) (k : String) : Option α :=
  match l with
  | [] => none
  | (k', v') :: rest => if k' = k then some v' else dictGet rest k

namespace Sapthame

/-- Task lifecycle states of the Bindu A2A protocol
(`sapthame/protocol/entities/bindu_task.py`). -/
inductive TaskState where
  | submitted
  | working
  | inputRequired
  | authRequired
  | completed
  | failed
  | canceled
  | rejected
  deriving DecidableEq, Repr

/-- A Bindu protocol task (`BinduTask`).  The message log, artifact list,
reference ids and creation timestamp are carried by the source dataclass
but never touched by the operations the claims are about; they are
omitted here.  `updatedAt` is a timestamp supplied by the caller. -/
structure BinduTask where
  taskId : String
  contextId : String
  state : TaskState
  prompt : Option String := none
  authType : Option String := none
  service : Option String := none
  error : Option String := none
  updatedAt : Nat := 0
  deriving DecidableEq, Repr

/-- Terminal-state check `BinduTask.is_terminal`: the four terminal states. -/
def BinduTask.is_terminal (t : BinduTask) : Bool :=
  match t.state with
  | .completed | .failed | .canceled | .rejected => true
  | _ => false

/-- A keyword-argument update accepted by `update_task_state` (any
attribute of the task other than `state`, which is a named positional
parameter and can never be passed again through `**kwargs`). -/
inductive KwUpdate where
  | setPrompt (v : Option String)
  | setAuthType (v : Option String)
  | setService (v : Option String)
  | setError (v : Option String)
  | setUpdatedAt (v : Nat)
  deriving DecidableEq, Repr

def applyKw (t : BinduTask) (k : KwUpdate) : BinduTask :=
  match k with
  | .setPrompt v => { t with prompt := v }
  | .setAuthType v => { t with authType := v }
  | .setService v => { t with service := v }
  | .setError v => { t with error := v }
  | .setUpdatedAt v => { t with updatedAt := v }

def applyKwargs (kw : List KwUpdate) (t : BinduTask) : BinduTask :=
  kw.foldl applyKw t

/-- State manager `TaskStateManager` (`sapthame/protocol/state_manager.py`): the task
map, the context index and the set of active (non-terminal) task ids. -/
structure TaskStateManager where
  tasks : List (String × BinduTask)
  context_tasks : List (String × List String)
  active_tasks : Finset String

def TaskStateManager.init : TaskStateManager :=
  { tasks := [], context_tasks := [], active_tasks := ∅ }

/-- Lookup `TaskStateManager.get_task`. -/
def TaskStateManager.get_task (m : TaskStateManager) (task_id : String) : Option BinduTask :=
  dictGet m.tasks task_id

/-- Operation `TaskStateManager.add_task`: unconditional upsert of the task, context
index maintenance, and active-set maintenance from the new task's state. -/
def TaskStateManager.add_task (m : TaskStateManager) (task : BinduTask) : TaskStateManager :=
  let tasks := dictInsert m.tasks task.taskId task
  let cur := (dictGet m.context_tasks task.contextId).getD []
  let cur := if task.taskId ∈ cur then cur else cur ++ [task.taskId]
  let context_tasks := dictInsert m.context_tasks task.contextId cur
  let active_tasks :=
    if task.is_terminal then m.active_tasks.erase task.taskId
    else insert task.taskId m.active_tasks
  { tasks := tasks, context_tasks := context_tasks, active_tasks := active_tasks }

/-- Operation `TaskStateManager.update_task_state`: returns the updated manager and
the boolean result (`False` when the task is unknown or already terminal,
in which case nothing is changed). -/
def TaskStateManager.update_task_state (m : TaskStateManager) (task_id : String)
    (state : TaskState) (now : Nat) (kwargs : List KwUpdate) : TaskStateManager × Bool :=
  match dictGet m.tasks task_id with
  | none => (m, false)
  | some task =>
    if task.is_terminal then (m, false)
    else
      let task' := applyKwargs kwargs { task with state := state, updatedAt := now }
      let tasks' := dictInsert m.tasks task_id task'
      let active' :=
        if task'.is_terminal then m.active_tasks.erase task_id else m.active_tasks
      ({ m with tasks := tasks', active_tasks := active' }, true)

/-- Operation `TaskStateManager.reset`. -/
def TaskStateManager.reset (_m : TaskStateManager) : TaskStateManager :=
  TaskStateManager.init

/-- The active-set invariant: a task id is active exactly when it is
tracked and its task is in a non-terminal state. -/
def TaskInv (m : TaskStateManager) : Prop :=
  ∀ id : String, id ∈ m.active_tasks ↔
    ∃ t, m.get_task id = some t ∧ t.is_terminal = false

/-- Managers reachable from a fresh manager by the mutating operations. -/
inductive Reachable : TaskStateManager → Prop where
  | init : Reachable TaskStateManager.init
  | add (m : TaskStateManager) (task : BinduTask) :
      Reachable m → Reachable (m.add_task task)
  | update (m : TaskStateManager) (task_id : String) (state : TaskState)
      (now : Nat) (kwargs : List KwUpdate) :
      Reachable m → Reachable (m.update_task_state task_id state now kwargs).1
  | reset (m : TaskStateManager) : Reachable m → Reachable m.reset

/-- Working-memory store `ScratchpadManager` (`orchestrator/state_managers/scratchpad.py`):
the note list, the configured capacity (a Python `int`, hence `Int`) and
the derived prompt-rendering cache. -/
structure ScratchpadManager where
  content : List String
  max_items : Int
  cached_content : Option String
  deriving DecidableEq, Repr

def ScratchpadManager.init (max_items : Int) : ScratchpadManager :=
  { content := [], max_items := max_items, cached_content := none }

/-- Operation `ScratchpadManager.append`: skip blank input, append the stripped
text, then enforce the bound with the slice `content[-max_items:]`. -/
def ScratchpadManager.append (m : ScratchpadManager) (text : String) : ScratchpadManager :=
  if pyStrip text = "" then m
  else
    let content := m.content ++ [pyStrip text]
    let content :=
      if (content.length : Int) > m.max_items then pySliceFrom content (-m.max_items)
      else content
    { m with content := content, cached_content := none }

/-- Item `TodoItem` (`common/models.py`). -/
structure TodoItem where
  text : String
  completed : Bool
  deriving DecidableEq, Repr

/-- Working-memory store `TodoManager` (`orchestrator/state_managers/todo.py`). -/
structure TodoManager where
  items : List TodoItem
  max_items : Int
  cached_status : Option String
  deriving DecidableEq, Repr

def TodoManager.init (max_items : Int) : TodoManager :=
  { items := [], max_items := max_items, cached_status := none }

/-- Operation `TodoManager._prune_items`: drop completed items first, then the
oldest items via the slice `items[-max_items:]`. -/
def TodoManager.prune_items (items : List TodoItem) (max_items : Int) : List TodoItem :=
  let items := if items.any (·.completed) then items.filter (fun i => !i.completed) else items
  if (items.length : Int) > max_items then pySliceFrom items (-max_items) else items

/-- Operation `TodoManager.add_item`: returns the updated manager and the boolean
result (`False` for blank input, which leaves the manager untouched). -/
def TodoManager.add_item (m : TodoManager) (item : String) : TodoManager × Bool :=
  if pyStrip item = "" then (m, false)
  else
    let items := m.items ++ [{ text := pyStrip item, completed := false }]
    let items :=
      if (items.length : Int) > m.max_items then TodoManager.prune_items items m.max_items
      else items
    ({ m with items := items, cached_status := none }, true)

/-- Set the `completed` flag of the item at a (valid) position. -/
def setCompletedAt : List TodoItem → Nat → List TodoItem
  | [], _ => []
  | it :: rest, 0 => { it with completed := true } :: rest
  | it :: rest, n + 1 => it :: setCompletedAt rest n

/-- Operation `TodoManager.complete_item`: `True` and the flagged item for an
in-range index, otherwise `False` with no change. -/
def TodoManager.complete_item (m : TodoManager) (index : Int) : TodoManager × Bool :=
  if 0 ≤ index ∧ index < (m.items.length : Int) then
    ({ m with items := setCompletedAt m.items index.toNat, cached_status := none }, true)
  else (m, false)

/-- Operation `TodoManager.remove_item`: pop the item at an in-range index,
otherwise `False` with no change. -/
def TodoManager.remove_item (m : TodoManager) (index : Int) : TodoManager × Bool :=
  if 0 ≤ index ∧ index < (m.items.length : Int) then
    ({ m with items := m.items.eraseIdx index.toNat, cached_status := none }, true)
  else (m, false)

/-- Handler `ActionHandler._handle_update_todo` (`orchestrator/actions/handler.py`):
dispatch on the operation string.  The boolean results of `add_item`,
`complete_item` and `remove_item` are discarded by the source, exactly as
modelled here.  Returns `((response_text, is_error), updated manager)`. -/
def handle_update_todo (tm : TodoManager) (item operation : String) (index : Option Int) :
    (String × Bool) × TodoManager :=
  if operation = "add" then
    let r := tm.add_item item
    (("Added todo item: " ++ item, false), r.1)
  else if operation = "complete" then
    match index with
    | some i =>
      let r := tm.complete_item i
      (("Completed todo item " ++ toString i, false), r.1)
    | none => (("Complete operation requires index", true), tm)
  else if operation = "remove" then
    match index with
    | some i =>
      let r := tm.remove_item i
      (("Removed todo item " ++ toString i, false), r.1)
    | none => (("Remove operation requires index", true), tm)
  else (("Unknown todo operation: " ++ operation, true), tm)

/-- Match a literal character sequence at the head of the input and
return the remainder, or `none`. -/
def dropLit : List Char → List Char → Option (List Char)
  | [], l => some l
  | _ :: _, [] => none
  | p :: ps, c :: cs => if c = p then dropLit ps cs else none

/-- Split the input at the first occurrence of the pattern: the text
before it and the remainder after it (models the lazy `(.*?)` followed by
a literal). -/
def splitFirst (pat : List Char) : List Char → Option (List Char × List Char)
  | [] => if pat.isPrefixOf ([] : List Char) then some ([], []) else none
  | c :: cs =>
    if pat.isPrefixOf (c :: cs) then some ([], (c :: cs).drop pat.length)
    else
      match splitFirst pat cs with
      | some (a, b) => some (c :: a, b)
      | none => none

/-- One attempt of the scanner regex
`<action\s+type="([^"]+)">(.*?)</action>` (with `DOTALL`) anchored at the
head of the input: on success, the captured action type, the captured raw
block content, and the remainder of the text after the match. -/
def matchAt (l : List Char) : Option (String × String × List Char) :=
  match dropLit "<action".data l with
  | none => none
  | some r1 =>
    if r1.takeWhile isPySpace = [] then none
    else
      match dropLit "type=\"".data (r1.dropWhile isPySpace) with
      | none => none
      | some r3 =>
        if r3.takeWhile (fun c => c != '"') = [] then none
        else
          match dropLit "\">".data (r3.dropWhile (fun c => c != '"')) with
          | none => none
          | some r5 =>
            match splitFirst "</action>".data r5 with
            | some (content, rest) =>
              some (⟨r3.takeWhile (fun c => c != '"')⟩, ⟨content⟩, rest)
            | none => none

/-- Scan of `re.finditer` over the whole text: scan left to right, emit each
non-overlapping match, resume after the end of a match.  The fuel only
bounds the recursion (one unit per character position) and never runs
out when it starts at the input length (`findBlocksAux_congr`,
`findBlocks_cons`). -/
def findBlocksAux (fuel : Nat) (l : List Char) : List (String × String) :=
  match fuel with
  | 0 => []
  | fuel + 1 =>
    match l with
    | [] => []
    | c :: cs =>
      match matchAt (c :: cs) with
      | some (ty, co, rest) => (ty, co) :: findBlocksAux fuel rest
      | none => findBlocksAux fuel cs

def findBlocks (l : List Char) : List (String × String) :=
  findBlocksAux l.length l

/-- Characters allowed in an element tag name by the field-extraction
model. -/
def isNameChar (c : Char) : Bool :=
  !(c = '<' || c = '>' || c = '/' || isPySpace c)

/-- Interface model of `xml.etree.ElementTree.fromstring` applied to
`"<root>" + content + "</root>"`, restricted to the flat element shape of
the action tag grammar: one element `<tag>text</tag>` (or `<tag/>`) per
sub-field, free text between elements ignored (it becomes text/tail of
the root, which the source never reads), anything else rejected as a
parse error.  Yields `(tag, text)` per child element, with `none` for an
element without text, matching `Element.text is None`. -/
def parseElem (l : List Char) : Except String ((String × Option String) × List Char) :=
  match dropLit ['<'] l with
  | none => .error "not well-formed (invalid token)"
  | some rest =>
    if rest.takeWhile isNameChar = [] then .error "not well-formed (invalid token)"
    else
      match dropLit ['/', '>'] (rest.dropWhile isNameChar) with
      | some r3 => .ok ((⟨rest.takeWhile isNameChar⟩, none), r3)
      | none =>
        match dropLit ['>'] (rest.dropWhile isNameChar) with
        | none => .error "not well-formed (invalid token)"
        | some r3 =>
          match dropLit ('<' :: '/' :: (rest.takeWhile isNameChar ++ ['>']))
              (r3.dropWhile (fun c => c != '<')) with
          | some r5 =>
            .ok ((⟨rest.takeWhile isNameChar⟩,
                  if r3.takeWhile (fun c => c != '<') = [] then none
                  else some ⟨r3.takeWhile (fun c => c != '<')⟩), r5)
          | none => .error "mismatched tag"

/-- All child elements of the wrapped content, in document order:
`(tag, text)` pairs, or the parse error for ill-formed content.  The
fuel only bounds the recursion (each element consumes at least one
character) and never runs out when it starts above the input length
(`parseFieldsAux_congr`, `parseFields_eq`). -/
def parseFieldsAux (fuel : Nat) (l : List Char) :
    Except String (List (String × Option String)) :=
  match fuel with
  | 0 => .error "fuel exhausted"
  | fuel + 1 =>
    match l.dropWhile (fun c => c != '<') with
    | [] => .ok []
    | c :: cs =>
      match parseElem (c :: cs) with
      | .ok (fld, r) =>
        match parseFieldsAux fuel r with
        | .ok fs => .ok (fld :: fs)
        | .error e => .error e
      | .error e => .error e

def parseFields (l : List Char) : Except String (List (String × Option String)) :=
  parseFieldsAux (l.length + 1) l

/-- Model of `Element.find` over the extracted fields: first child with the tag. -/
def assocFind : List (String × Option String) → String → Option (Option String)
  | [], _ => none
  | (k, v) :: rest, tag => if k = tag then some v else assocFind rest tag

/-- Extractor `ActionParser._get_text`: the stripped text of the first matching
child if it is present and truthy, otherwise the default or a
required-tag error. -/
def get_text (fields : List (String × Option String)) (tag : String)
    (required : Bool) (dflt : String) : Except String String :=
  match assocFind fields tag with
  | some (some s) =>
    if s = "" then
      if required then .error ("Required tag \x27" ++ tag ++ "\x27 not found or empty")
      else .ok dflt
    else .ok (pyStrip s)
  | _ =>
    if required then .error ("Required tag \x27" ++ tag ++ "\x27 not found or empty")
    else .ok dflt

def digitsToNat (ds : List Char) : Nat :=
  ds.foldl (fun a c => a * 10 + (c.toNat - '0'.toNat)) 0

/-- Model of Python `int(s)` on a stripped string: an optional sign
followed by decimal digits, a `ValueError` otherwise. -/
def pyInt (s : String) : Except String Int :=
  match s.data with
  | '-' :: ds =>
    if ds ≠ [] ∧ ds.all (·.isDigit) then .ok (-(digitsToNat ds : Int))
    else .error ("invalid literal for int() with base 10: " ++ s)
  | '+' :: ds =>
    if ds ≠ [] ∧ ds.all (·.isDigit) then .ok ((digitsToNat ds : Int))
    else .error ("invalid literal for int() with base 10: " ++ s)
  | ds =>
    if ds ≠ [] ∧ ds.all (·.isDigit) then .ok ((digitsToNat ds : Int))
    else .error ("invalid literal for int() with base 10: " ++ s)

/-- Extractor `ActionParser._get_int`: like `_get_text` but converts with `int()`,
whose `ValueError` propagates as a per-block error. -/
def get_int (fields : List (String × Option String)) (tag : String)
    (required : Bool) : Except String (Option Int) :=
  match assocFind fields tag with
  | some (some s) =>
    if s = "" then
      if required then .error ("Required tag \x27" ++ tag ++ "\x27 not found or empty")
      else .ok none
    else
      match pyInt (pyStrip s) with
      | .ok n => .ok (some n)
      | .error e => .error e
  | _ =>
    if required then .error ("Required tag \x27" ++ tag ++ "\x27 not found or empty")
    else .ok none

/-- The closed action union
(`orchestrator/actions/entities/actions.py`). -/
inductive Action where
  | queryAgent (agent_id query context_id : String)
  | updateScratchpad (content operation : String)
  | updateTodo (item operation : String) (index : Option Int)
  | finishStage (message summary : String)
  deriving DecidableEq, Repr

/-- Dispatcher `ActionParser._parse_action`: field extraction for one block.
`.error` models the exception re-raised to `parse_response`; `.ok none`
is an unknown action type (skipped with a warning).  In the source the
calls that pass `default=` still leave `required=True`, so a missing
`operation` tag is an error and the defaults are dead. -/
def parse_action (action_type content : String) : Except String (Option Action) :=
  match parseFields content.data with
  | .error e => .error e
  | .ok fields =>
    if action_type = "query_agent" then do
      let agent_id ← get_text fields "agent_id" true ""
      let query ← get_text fields "query" true ""
      let context_id ← get_text fields "context_id" false ""
      return some (.queryAgent agent_id query context_id)
    else if action_type = "update_scratchpad" then do
      let content ← get_text fields "content" true ""
      let operation ← get_text fields "operation" true "append"
      return some (.updateScratchpad content operation)
    else if action_type = "update_todo" then do
      let item ← get_text fields "item" true ""
      let operation ← get_text fields "operation" true "add"
      let index ← get_int fields "index" false
      return some (.updateTodo item operation index)
    else if action_type = "finish_stage" then do
      let message ← get_text fields "message" true ""
      let summary ← get_text fields "summary" true ""
      return some (.finishStage message summary)
    else .ok none

def formatParseError (ty e : String) : String :=
  "Failed to parse " ++ ty ++ " action: " ++ e

/-- One iteration of the `parse_response` loop over the found blocks. -/
def parseStep (acc : List Action × List String) (b : String × String) :
    List Action × List String :=
  match parse_action b.1 (pyStrip b.2) with
  | .ok (some a) => (acc.1 ++ [a], acc.2)
  | .ok none => acc
  | .error e => (acc.1, acc.2 ++ [formatParseError b.1 e])

/-- Parser entry point `ActionParser.parse_response`: returns
`(actions, parsing_errors, found_action_attempt)`. -/
def parse_response (llm_output : String) : List Action × List String × Bool :=
  let blocks := findBlocks llm_output.data
  let acc := blocks.foldl parseStep ([], [])
  (acc.1, acc.2, !blocks.isEmpty)

/-- The action a block contributes, if any. -/
def blockAction (b : String × String) : Option Action :=
  match parse_action b.1 (pyStrip b.2) with
  | .ok (some a) => some a
  | _ => none

/-- The parse-error entry a block contributes, if any. -/
def blockError (b : String × String) : Option String :=
  match parse_action b.1 (pyStrip b.2) with
  | .error e => some (formatParseError b.1 e)
  | _ => none

/-- One delegated query/response record
(`ActionHandler.agent_trajectories` entry). -/
structure Trajectory where
  agent_id : String
  query : String
  response : String
  task_id : String
  deriving DecidableEq, Repr

/-- Record `ExecutionResult` (`orchestrator/entities/execution_result.py`). -/
structure ExecutionResult where
  actions_executed : List Action
  env_responses : List String
  has_error : Bool
  done : Bool
  finish_message : Option String
  agent_trajectories : Option (List (String × Trajectory))
  deriving DecidableEq, Repr

/-- The action-execution loop of `TurnExecutor.execute`, parameterised by
the handler (handler state `σ`, result `(output, is_error)` or a raised
exception).  Returns the final handler state, the executed actions, their
responses, the error flag, the finish message and the done flag. -/
def execLoop {σ : Type} (handle : σ → Action → σ × Except String (String × Bool)) :
    σ → List Action → σ × List Action × List String × Bool × Option String × Bool
  | s, [] => (s, [], [], false, none, false)
  | s, a :: rest =>
    match handle s a with
    | (s1, .ok (output, is_error)) =>
      match a with
      | .finishStage msg _ => (s1, [a], [output], is_error, some msg, true)
      | _ =>
        let r := execLoop handle s1 rest
        (r.1, a :: r.2.1, output :: r.2.2.1, is_error || r.2.2.2.1,
         r.2.2.2.2.1, r.2.2.2.2.2)
    | (s1, .error e) =>
      let r := execLoop handle s1 rest
      (r.1, r.2.1, ("[ERROR] Action execution failed: " ++ e) :: r.2.2.1, true,
       r.2.2.2.2.1, r.2.2.2.2.2)

/-- Pipeline `TurnExecutor.execute`, parameterised by the action handler and its
trajectory store (`get_and_clear_agent_trajectories`).  Returns the
`ExecutionResult` and the final handler state. -/
def execute {σ : Type} (handle : σ → Action → σ × Except String (String × Bool))
    (get_and_clear : σ → List (String × Trajectory) × σ) (s : σ)
    (llm_output : String) : ExecutionResult × σ :=
  let pr := parse_response llm_output
  let actions := pr.1
  let parsing_errors := pr.2.1
  let found_action_attempt := pr.2.2
  if found_action_attempt = false then
    ({ actions_executed := [], env_responses := ["No actions were attempted."],
       has_error := true, done := true, finish_message := none,
       agent_trajectories := none }, s)
  else
    let parse_msgs := parsing_errors.map (fun e => "[PARSE ERROR] " ++ e)
    if parsing_errors ≠ [] ∧ actions = [] then
      ({ actions_executed := [], env_responses := parse_msgs,
         has_error := true, done := false, finish_message := none,
         agent_trajectories := none }, s)
    else
      let r := execLoop handle s actions
      let tj := get_and_clear r.1
      ({ actions_executed := r.2.1, env_responses := parse_msgs ++ r.2.2.1,
         has_error := (decide (parsing_errors ≠ [])) || r.2.2.2.1,
         done := r.2.2.2.2.2, finish_message := r.2.2.2.2.1,
         agent_trajectories := if tj.1 = [] then none else some tj.1 }, tj.2)

/-- A task already stored in the terminal state `completed`. -/
def tDone : BinduTask := { taskId := "t1", contextId := "c1", state := .completed }

/-- An upsert for the same task id carrying the non-terminal state
`working`. -/
def tWork : BinduTask := { taskId := "t1", contextId := "c1", state := .working }

/-- The suffix of length at most `n` of a list. -/
def lastN (n : Nat) (l : List α) : List α := l.drop (l.length - n)

end Sapthame

namespace Saptha

/-- Descriptor `AgentInfo` (`saptha/core/types.py`), reduced to the fields the
coordination strategies read. -/
structure AgentInfo where
  id : String
  endpoint : String := ""
  deriving DecidableEq, Repr

/-- Record `Message` (`saptha/core/types.py`), reduced to the fields the
coordination strategies read. -/
structure Message where
  content : String
  role : String := "user"
  deriving DecidableEq, Repr

/-- Record `AgentResponse` (`saptha/core/types.py`), reduced to the fields the
coordination strategies read. -/
structure AgentResponse where
  agent_id : String
  content : String
  success : Bool := true
  error_message : Option String := none
  deriving DecidableEq, Repr

/-- Aggregator `DistributedOrchestrator._aggregate_responses`: a single response is
returned verbatim, several are formatted and joined. -/
def aggregate_responses (responses : List AgentResponse) : String :=
  match responses with
  | [r] => r.content
  | _ =>
    pyJoin "\n\n---\n\n"
      (responses.map (fun r => "Agent " ++ r.agent_id ++ " Response:\n" ++ r.content))

/-- The response-processing loop of `_execute_parallel`: walk the results
paired with their agents by index, collecting successful responses and
failed agent ids (`asyncio.gather(..., return_exceptions=True)` delivers
every outcome, so no failure hides a later result). -/
def parallelStep (acc : List AgentResponse × List String)
    (p : AgentInfo × Except String AgentResponse) : List AgentResponse × List String :=
  match p.2 with
  | .error _ => (acc.1, acc.2 ++ [p.1.id])
  | .ok r => (acc.1 ++ [r], acc.2)

def process_parallel (pairs : List (AgentInfo × Except String AgentResponse)) :
    List AgentResponse × List String :=
  pairs.foldl parallelStep ([], [])

/-- Coordinator `DistributedOrchestrator._execute_parallel`: each entry of `outcomes`
is the result of `_execute_single_agent` for the agent at the same index
(a response, or the exception it raised). -/
def execute_parallel (agents : List AgentInfo)
    (outcomes : List (Except String AgentResponse)) : Except String String :=
  let pr := process_parallel (agents.zip outcomes)
  if pr.1.isEmpty then .error "All agents failed in parallel execution"
  else .ok (aggregate_responses pr.1)

/-- The message built for the next agent in `_execute_sequential`. -/
def nextMessage (responseContent origContent : String) : Message :=
  { content := "Previous agent response: " ++ responseContent ++
      "\n\nOriginal request: " ++ origContent,
    role := "system" }

/-- The loop of `_execute_sequential`, parameterised by the remote call
(`client.send_message`; `.error` is a raised `AgentUnavailableError` or
`A2AClientError`).  Returns the task outcome and the ids of the agents
that were actually invoked, in order. -/
def seqLoop (call : AgentInfo → Message → Except String AgentResponse)
    (origContent : String) : Message → List AgentInfo →
    Except String String × List String
  | _, [] => (.ok "", [])
  | msg, a :: rest =>
    match call a msg with
    | .error e => (.error ("Critical agent " ++ a.id ++ " failed: " ++ e), [a.id])
    | .ok r =>
      match rest with
      | [] => (.ok r.content, [a.id])
      | _ :: _ =>
        let res := seqLoop call origContent (nextMessage r.content origContent) rest
        (res.1, a.id :: res.2)

/-- Coordinator `DistributedOrchestrator._execute_sequential`. -/
def execute_sequential (call : AgentInfo → Message → Except String AgentResponse)
    (message : Message) (agents : List AgentInfo) :
    Except String String × List String :=
  seqLoop call message.content message agents

/-- Run a chain of agents assuming every call succeeds, producing the
message that reaches the next agent after them (`none` if one fails). -/
def chainRun (call : AgentInfo → Message → Except String AgentResponse)
    (origContent : String) : Message → List AgentInfo → Option Message
  | msg, [] => some msg
  | msg, a :: rest =>
    match call a msg with
    | .error _ => none
    | .ok r => chainRun call origContent (nextMessage r.content origContent) rest

/-- Errors of `A2AClient` (`saptha/protocol/a2a_client.py`):
`AgentUnavailableError` is a subclass of `A2AClientError`. -/
inductive ClientError where
  | unavailable (msg : String)
  | clientError (msg : String)
  deriving DecidableEq, Repr

/-- The body of one HTTP attempt as seen by `send_message`: the transport
outcome, and for a 2xx/3xx response the pydantic validation of the
envelope. -/
inductive EnvelopeParse where
  | malformed (msg : String)
  | envl (error : Option String) (result : Option String)
  deriving DecidableEq, Repr

/-- One attempt of the transport: a timeout, a connection error, or an
HTTP response with a status code, a body text and an envelope parse. -/
inductive TransportAttempt where
  | timeout
  | connectError
  | http (status : Nat) (text : String) (envelope : EnvelopeParse)
  deriving DecidableEq, Repr

/-- One un-retried execution of the `send_message` body.  The
`AgentUnavailableError` raised for a 5xx status and the `A2AClientError`
raised for 4xx/error-envelope/empty-result inside the `try` block are
caught again by the final `except Exception` clause and re-wrapped as
`A2AClientError("Unexpected error: ...")`; only the `httpx` timeout and
connect errors surface as `AgentUnavailableError`. -/
def attemptOnce (agent_id : String) (io : TransportAttempt) : Except ClientError AgentResponse :=
  match io with
  | .timeout => .error (.unavailable ("Agent " ++ agent_id ++ " timed out"))
  | .connectError => .error (.unavailable ("Cannot connect to agent " ++ agent_id))
  | .http status text envelope =>
    if 500 ≤ status then
      .error (.clientError ("Unexpected error: Agent " ++ agent_id ++
        " returned server error: " ++ toString status))
    else if 400 ≤ status then
      .error (.clientError ("Unexpected error: Client error: " ++ toString status ++
        " - " ++ text))
    else
      match envelope with
      | .malformed m => .error (.clientError ("Unexpected error: " ++ m))
      | .envl (some emsg) _ =>
        .error (.clientError ("Unexpected error: Agent error: " ++ emsg))
      | .envl none none =>
        .error (.clientError "Unexpected error: Agent returned empty result")
      | .envl none (some content) =>
        .ok { agent_id := agent_id, content := content, success := true }

/-- Model of `tenacity.wait_exponential(multiplier=1, min=1, max=10)` evaluated
after `attempt_number` attempts:
`max(max(0, min), min(multiplier * 2 ** (attempt_number - 1), max))`. -/
def wait_exponential (multiplier mn mx attempt_number : Nat) : Nat :=
  max (max 0 mn) (min (multiplier * 2 ^ (attempt_number - 1)) mx)

/-- Client call `A2AClient.send_message` under
`@retry(stop=stop_after_attempt(3), wait=wait_exponential(multiplier=1,
min=1, max=10), reraise=True)`.  The default tenacity retry predicate
retries on every exception; `stop_after_attempt(3)` bounds the loop at
three attempts, so the loop is unrolled here.  `ios n` is the transport
outcome of the `n`-th attempt (numbered from 1).  Returns the final
result, the number of attempts made, and the backoff waits slept between
attempts. -/
def send_message (ios : Nat → TransportAttempt) (agent_id : String) :
    Except ClientError AgentResponse × Nat × List Nat :=
  match attemptOnce agent_id (ios 1) with
  | .ok a => (.ok a, 1, [])
  | .error _ =>
    match attemptOnce agent_id (ios 2) with
    | .ok a => (.ok a, 2, [wait_exponential 1 1 10 1])
    | .error _ =>
      match attemptOnce agent_id (ios 3) with
      | .ok a => (.ok a, 3, [wait_exponential 1 1 10 1, wait_exponential 1 1 10 2])
      | .error e =>
        (.error e, 3, [wait_exponential 1 1 10 1, wait_exponential 1 1 10 2])

/-- Agents and outcomes for the spec scenario: A and C succeed, B fails. -/
def pAgents : List AgentInfo := [⟨"A", ""⟩, ⟨"B", ""⟩, ⟨"C", ""⟩]

def pOutcomes : List (Except String AgentResponse) :=
  [.ok { agent_id := "A", content := "ra" }, .error "boom",
   .ok { agent_id := "C", content := "rc" }]

/-- A remote call where agent A raises and every other agent answers. -/
def wCall : AgentInfo → Message → Except String AgentResponse := fun a _ =>
  if a.id = "A" then .error "boom" else .ok { agent_id := a.id, content := "fine" }

/-- Attempt outcomes with a 4xx on the first attempt and a success on the
second. -/
def iosCex : Nat → TransportAttempt := fun n =>
  if n = 1 then .http 400 "bad request" (.envl none none)
  else .http 200 "" (.envl none (some "hi"))

end Saptha

theorem dictGet_dictInsert (l : List (String × α)) (k k' : String) (v : α) :
    dictGet (dictInsert l k v) k' = if k' = k then some v else dictGet l k' := by
  induction l with
  | nil =>
    by_cases h : k' = k
    · subst h; simp [dictInsert, dictGet]
    · have h2 : ¬k = k' := fun hh => h hh.symm
      simp [dictInsert, dictGet, h, h2]
  | cons hd tl ih =>
    obtain ⟨k0, v0⟩ := hd
    by_cases h0 : k0 = k
    · subst h0
      by_cases h1 : k' = k0
      · subst h1; simp [dictInsert, dictGet]
      · have h1' : ¬k0 = k' := fun hh => h1 hh.symm
        simp [dictInsert, dictGet, h1, h1']
    · have h0' : ¬k = k0 := fun hh => h0 hh.symm
      by_cases h1 : k' = k0
      · subst h1
        simp [dictInsert, dictGet, h0, h0']
      · have h1' : ¬k0 = k' := fun hh => h1 hh.symm
        simp [dictInsert, dictGet, h0, h1, h1', ih]

theorem infix_of_append_left (p x : List Char) : x <:+: p ++ x :=
  ⟨p, [], by simp⟩

theorem infix_trans {a b c : List Char} (h1 : a <:+: b) (h2 : b <:+: c) : a <:+: c := by
  obtain ⟨s1, t1, e1⟩ := h1
  obtain ⟨s2, t2, e2⟩ := h2
  exact ⟨s2 ++ s1, t1 ++ t2, by rw [← e2, ← e1]; simp [List.append_assoc]⟩

theorem mem_pyJoin_sub (sep : String) (l : List String) (x : String) (hx : x ∈ l) :
    x.data <:+: (pyJoin sep l).data := by
  induction l with
  | nil => simp at hx
  | cons a rest ih =>
    cases rest with
    | nil =>
      simp only [List.mem_singleton] at hx
      subst hx
      exact ⟨[], [], by simp [pyJoin]⟩
    | cons b bs =>
      rcases List.mem_cons.mp hx with h | h
      · subst h
        exact ⟨[], (sep ++ pyJoin sep (b :: bs)).data, by simp [pyJoin, List.append_assoc]⟩
      · have h1 := ih h
        have h2 : (pyJoin sep (b :: bs)).data <:+: (pyJoin sep (a :: b :: bs)).data := by
          have he : (pyJoin sep (a :: b :: bs)).data =
              (a ++ sep).data ++ (pyJoin sep (b :: bs)).data := rfl
          rw [he]
          exact infix_of_append_left _ _
        exact infix_trans h1 h2

namespace Sapthame

theorem applyKw_state (t : BinduTask) (k : KwUpdate) : (applyKw t k).state = t.state := by
  cases k <;> rfl

theorem applyKwargs_state (kw : List KwUpdate) (t : BinduTask) :
    (applyKwargs kw t).state = t.state := by
  induction kw generalizing t with
  | nil => rfl
  | cons k ks ih => simp [applyKwargs] at ih ⊢; rw [ih, applyKw_state]

theorem dropLit_length : ∀ (p l r : List Char), dropLit p l = some r →
    r.length + p.length = l.length := by
  intro p
  induction p with
  | nil =>
    intro l r h
    simp [dropLit] at h
    subst h; simp
  | cons c cs ih =>
    intro l r h
    cases l with
    | nil => simp [dropLit] at h
    | cons d ds =>
      simp only [dropLit] at h
      by_cases hd : d = c
      · rw [if_pos hd] at h
        have := ih ds r h
        simp [List.length_cons]
        omega
      · rw [if_neg hd] at h
        exact absurd h (by simp)

theorem splitFirst_length : ∀ (l a b : List Char) (pat : List Char),
    splitFirst pat l = some (a, b) → b.length ≤ l.length := by
  intro l
  induction l with
  | nil =>
    intro a b pat h
    simp only [splitFirst] at h
    by_cases hp : pat.isPrefixOf ([] : List Char)
    · rw [if_pos hp] at h
      cases h
      simp
    · rw [if_neg hp] at h
      simp at h
  | cons c cs ih =>
    intro a b pat h
    simp only [splitFirst] at h
    by_cases hp : pat.isPrefixOf (c :: cs)
    · rw [if_pos hp] at h
      cases h
      rw [List.length_drop]
      simp only [List.length_cons]
      omega
    · rw [if_neg hp] at h
      cases hs : splitFirst pat cs with
      | none => rw [hs] at h; simp at h
      | some ab =>
        obtain ⟨a', b'⟩ := ab
        rw [hs] at h
        have hle := ih a' b' pat hs
        cases h
        simp only [List.length_cons]
        omega

theorem dropWhile_length_le (p : α → Bool) (l : List α) :
    (l.dropWhile p).length ≤ l.length := by
  induction l with
  | nil => simp [List.dropWhile]
  | cons c cs ih =>
    cases hp : p c
    · simp [List.dropWhile, hp]
    · simp only [List.dropWhile, hp, List.length_cons]
      omega

theorem matchAt_rest_lt (l : List Char) (ty co : String) (rest : List Char)
    (h : matchAt l = some (ty, co, rest)) : rest.length < l.length := by
  unfold matchAt at h
  cases h1 : dropLit "<action".data l with
  | none => simp [h1] at h
  | some r1 =>
    simp only [h1] at h
    have hr1 : r1.length + 7 = l.length := dropLit_length _ _ _ h1
    by_cases hw : r1.takeWhile isPySpace = []
    · simp [hw] at h
    · rw [if_neg hw] at h
      cases h2 : dropLit "type=\"".data (r1.dropWhile isPySpace) with
      | none => simp [h2] at h
      | some r3 =>
        simp only [h2] at h
        have hr3 : r3.length + 6 = (r1.dropWhile isPySpace).length := dropLit_length _ _ _ h2
        have hdw1 : (r1.dropWhile isPySpace).length ≤ r1.length := dropWhile_length_le _ _
        by_cases ht : r3.takeWhile (fun c => c != '"') = []
        · simp [ht] at h
        · rw [if_neg ht] at h
          cases h3 : dropLit "\">".data (r3.dropWhile (fun c => c != '"')) with
          | none => simp [h3] at h
          | some r5 =>
            simp only [h3] at h
            have hr5 : r5.length + 2 = (r3.dropWhile (fun c => c != '"')).length :=
              dropLit_length _ _ _ h3
            have hdw2 : (r3.dropWhile (fun c => c != '"')).length ≤ r3.length :=
              dropWhile_length_le _ _
            cases h4 : splitFirst "</action>".data r5 with
            | none => simp [h4] at h
            | some ab =>
              obtain ⟨content, rest'⟩ := ab
              simp only [h4] at h
              have hsf := splitFirst_length r5 content rest' _ h4
              cases h
              omega

theorem findBlocksAux_congr (f1 : Nat) : ∀ (l : List Char) (f2 : Nat),
    l.length ≤ f1 → l.length ≤ f2 → findBlocksAux f1 l = findBlocksAux f2 l := by
  induction f1 with
  | zero =>
    intro l f2 h1 _
    have hl : l = [] := List.eq_nil_of_length_eq_zero (Nat.le_zero.mp h1)
    subst hl
    cases f2 <;> rfl
  | succ f1 ih =>
    intro l f2 h1 h2
    cases l with
    | nil => cases f2 <;> rfl
    | cons c cs =>
      cases f2 with
      | zero => simp at h2
      | succ f2 =>
        simp only [findBlocksAux]
        cases hm : matchAt (c :: cs) with
        | none =>
          simp only [List.length_cons] at h1 h2
          exact ih cs f2 (by omega) (by omega)
        | some x =>
          obtain ⟨ty, co, rest⟩ := x
          simp only []
          have hlt := matchAt_rest_lt _ _ _ _ hm
          simp only [List.length_cons] at h1 h2 hlt
          rw [ih rest f2 (by omega) (by omega)]

/-- Equation: `findBlocks` satisfies the intended recursion equation: the fuel is
irrelevant. -/
theorem findBlocks_cons (c : Char) (cs : List Char) :
    findBlocks (c :: cs) =
      match matchAt (c :: cs) with
      | some (ty, co, rest) => (ty, co) :: findBlocks rest
      | none => findBlocks cs := by
  unfold findBlocks
  simp only [List.length_cons, findBlocksAux]
  cases hm : matchAt (c :: cs) with
  | none => simp only []
  | some x =>
    obtain ⟨ty, co, rest⟩ := x
    simp only []
    have hlt := matchAt_rest_lt _ _ _ _ hm
    simp only [List.length_cons] at hlt
    rw [findBlocksAux_congr cs.length rest rest.length (by omega) (by omega)]

theorem parseElem_rest_lt (l : List Char) (fld : String × Option String) (rest' : List Char)
    (h : parseElem l = .ok (fld, rest')) : rest'.length < l.length := by
  unfold parseElem at h
  cases h1 : dropLit ['<'] l with
  | none => simp [h1] at h
  | some rest =>
    simp only [h1] at h
    have hl1 : rest.length + 1 = l.length := dropLit_length _ _ _ h1
    by_cases hn : rest.takeWhile isNameChar = []
    · simp [hn] at h
    · rw [if_neg hn] at h
      have hdw : (rest.dropWhile isNameChar).length ≤ rest.length := dropWhile_length_le _ _
      cases h2 : dropLit ['/', '>'] (rest.dropWhile isNameChar) with
      | some r3 =>
        simp only [h2] at h
        have hl2 := dropLit_length _ _ _ h2
        cases h
        simp only [List.length_cons, List.length_nil] at hl2
        omega
      | none =>
        simp only [h2] at h
        cases h3 : dropLit ['>'] (rest.dropWhile isNameChar) with
        | none => simp [h3] at h
        | some r3 =>
          simp only [h3] at h
          have hl3 := dropLit_length _ _ _ h3
          have hdw2 : (r3.dropWhile (fun c => c != '<')).length ≤ r3.length :=
            dropWhile_length_le _ _
          cases h4 : dropLit ('<' :: '/' :: (rest.takeWhile isNameChar ++ ['>']))
              (r3.dropWhile (fun c => c != '<')) with
          | none => simp [h4] at h
          | some r5 =>
            simp only [h4] at h
            have hl4 := dropLit_length _ _ _ h4
            cases h
            simp only [List.length_cons, List.length_nil, List.length_append] at hl3 hl4
            omega

theorem parseFieldsAux_congr (f1 : Nat) : ∀ (l : List Char) (f2 : Nat),
    l.length < f1 → l.length < f2 → parseFieldsAux f1 l = parseFieldsAux f2 l := by
  induction f1 with
  | zero => intro l f2 h1 _; simp at h1
  | succ f1 ih =>
    intro l f2 h1 h2
    cases f2 with
    | zero => simp at h2
    | succ f2 =>
      simp only [parseFieldsAux]
      have hdl : (l.dropWhile (fun c => c != '<')).length ≤ l.length :=
        dropWhile_length_le _ _
      cases hd : l.dropWhile (fun c => c != '<') with
      | nil => rfl
      | cons c cs =>
        simp only []
        cases hp : parseElem (c :: cs) with
        | error e => rfl
        | ok x =>
          obtain ⟨fld, r⟩ := x
          simp only []
          have hlt := parseElem_rest_lt _ _ _ hp
          rw [hd] at hdl
          simp only [List.length_cons] at hdl hlt
          rw [ih r f2 (by omega) (by omega)]

/-- Equation: `parseFields` satisfies the intended recursion equation: the fuel is
irrelevant. -/
theorem parseFields_eq (l : List Char) :
    parseFields l =
      match l.dropWhile (fun c => c != '<') with
      | [] => .ok []
      | c :: cs =>
        match parseElem (c :: cs) with
        | .ok (fld, r) =>
          match parseFields r with
          | .ok fs => .ok (fld :: fs)
          | .error e => .error e
        | .error e => .error e := by
  show parseFieldsAux (l.length + 1) l = _
  simp only [parseFieldsAux]
  have hdl := dropWhile_length_le (fun c => c != '<') l
  cases hd : l.dropWhile (fun c => c != '<') with
  | nil => rfl
  | cons c cs =>
    simp only []
    cases hp : parseElem (c :: cs) with
    | error e => rfl
    | ok x =>
      obtain ⟨fld, r⟩ := x
      simp only []
      have hlt := parseElem_rest_lt _ _ _ hp
      rw [hd] at hdl
      simp only [List.length_cons] at hdl hlt
      rw [parseFieldsAux_congr l.length r (r.length + 1) (by omega) (by omega)]
      rfl

theorem is_terminal_eq_of_state_eq (t1 t2 : BinduTask) (h : t1.state = t2.state) :
    t1.is_terminal = t2.is_terminal := by
  unfold BinduTask.is_terminal
  rw [h]

/-- C1 (counterexample): an upsert via `add_task` carrying a different
state is NOT rejected on a terminal task — it silently replaces the
stored task.  Here the stored task `t1` is `completed` (terminal), yet
after `add_task` with a `working` copy the stored task has changed. -/
theorem add_task_terminal_upsert_cex :
    tDone.is_terminal = true ∧
    ((TaskStateManager.init.add_task tDone).add_task tWork).get_task "t1" = some tWork ∧
    tWork.state ≠ tDone.state := by
  refine ⟨by decide, by decide, by decide⟩

/-- C1 (amended): for every task stored in a terminal state,
`update_task_state` is rejected with the not-applied signal `False` and
the manager (hence the stored task) is left unchanged; an upsert via
`add_task`, by contrast, unconditionally replaces the stored task. -/
theorem update_task_state_terminal_rejected (m : TaskStateManager) (task_id : String)
    (task : BinduTask) (state : TaskState) (now : Nat) (kwargs : List KwUpdate)
    (hget : m.get_task task_id = some task) (hterm : task.is_terminal = true) :
    m.update_task_state task_id state now kwargs = (m, false) := by
  unfold TaskStateManager.update_task_state
  simp only [TaskStateManager.get_task] at hget
  rw [hget]
  simp [hterm]

theorem update_task_state_terminal_rejected_witness :
    tDone.is_terminal = true ∧
    (TaskStateManager.init.add_task tDone).update_task_state "t1" TaskState.working 5 [] =
      (TaskStateManager.init.add_task tDone, false) :=
  ⟨by decide,
   update_task_state_terminal_rejected (TaskStateManager.init.add_task tDone) "t1" tDone
     TaskState.working 5 [] (by decide) (by decide)⟩

/-- C8: handling an `UpdateTodo` action with operation `complete` and an
out-of-range index: `TodoManager.complete_item` correctly signals
`False`, but `ActionHandler._handle_update_todo` discards that signal and
reports a non-error success message, leaving the list unchanged —
diverging from the specified behaviour (an error response for an invalid
index). -/
theorem handle_update_todo_invalid_index_bug :
    (TodoManager.init 100).complete_item 5 = (TodoManager.init 100, false) ∧
    handle_update_todo (TodoManager.init 100) "i" "complete" (some 5) =
      (("Completed todo item 5", false), TodoManager.init 100) := by
  refine ⟨by decide, by decide⟩

/-- C9: for every sequence of `add_task`, `update_task_state` and `reset`
operations from a fresh manager, the active-task set holds exactly the
tracked task ids whose task is in a non-terminal state. -/
theorem active_tasks_inv (m : TaskStateManager) (h : Reachable m) : TaskInv m := by
  induction h with
  | init =>
    intro id
    simp [TaskStateManager.init, TaskStateManager.get_task, dictGet]
  | add m task _ ih =>
    intro id
    simp only [TaskStateManager.add_task, TaskStateManager.get_task]
    rw [dictGet_dictInsert]
    by_cases hid : id = task.taskId
    · subst hid
      cases hterm : task.is_terminal
      · simp [hterm, Finset.mem_insert]
      · simp [hterm, Finset.mem_erase]
    · rw [if_neg hid]
      cases hterm : task.is_terminal
      · simp only [hterm, Bool.false_eq_true, if_false, Finset.mem_insert, hid,
          false_or]
        simpa [TaskStateManager.get_task] using ih id
      · simp only [hterm, if_true, Finset.mem_erase, hid, ne_eq, not_false_iff,
          true_and]
        simpa [TaskStateManager.get_task] using ih id
  | update m task_id state now kwargs _ ih =>
    intro id
    unfold TaskStateManager.update_task_state
    cases hget : dictGet m.tasks task_id with
    | none => simpa [TaskStateManager.get_task] using ih id
    | some task =>
      simp only [hget]
      by_cases hterm : task.is_terminal
      · simp only [hterm, if_true]
        simpa [TaskStateManager.get_task] using ih id
      · simp only [hterm, Bool.false_eq_true, if_false]
        simp only [TaskStateManager.get_task]
        rw [dictGet_dictInsert]
        have hstate :
            (applyKwargs kwargs { task with state := state, updatedAt := now }).is_terminal =
              ({ task with state := state, updatedAt := now } : BinduTask).is_terminal :=
          is_terminal_eq_of_state_eq _ _ (applyKwargs_state _ _)
        by_cases hid : id = task_id
        · subst hid
          cases hterm' :
              (applyKwargs kwargs { task with state := state, updatedAt := now }).is_terminal
          · simp only [hterm', Bool.false_eq_true, if_false, if_pos rfl]
            constructor
            · intro _
              exact ⟨_, rfl, hterm'⟩
            · intro _
              have := (ih id).mpr ⟨task, by simpa [TaskStateManager.get_task] using hget,
                by simpa using hterm⟩
              exact this
          · simp only [hterm', if_true, Finset.mem_erase, ne_eq, not_true, false_and,
              if_pos rfl]
            constructor
            · intro hc
              exact hc.elim
            · rintro ⟨t, ht, htf⟩
              cases ht
              rw [hterm'] at htf
              cases htf
        · rw [if_neg hid]
          cases hterm' :
              (applyKwargs kwargs { task with state := state, updatedAt := now }).is_terminal
          · simp only [hterm', Bool.false_eq_true, if_false]
            simpa [TaskStateManager.get_task] using ih id
          · simp only [hterm', if_true, Finset.mem_erase, hid, ne_eq, not_false_iff,
              true_and]
            simpa [TaskStateManager.get_task] using ih id
  | reset m _ _ =>
    intro id
    simp [TaskStateManager.reset, TaskStateManager.init, TaskStateManager.get_task, dictGet]

theorem active_tasks_inv_witness :
    TaskInv ((TaskStateManager.init.add_task tWork).update_task_state "t1"
      TaskState.completed 3 []).1 :=
  active_tasks_inv _
    (Reachable.update (TaskStateManager.init.add_task tWork) "t1" TaskState.completed 3 []
      (Reachable.add TaskStateManager.init tWork Reachable.init))

/-- C10: appending a blank (empty or whitespace-only) string to the
scratchpad, or adding it as a todo item, leaves the store completely
unchanged; `add_item` additionally returns `False`. -/
theorem blank_input_noop (m : ScratchpadManager) (tm : TodoManager) (text : String)
    (h : pyStrip text = "") :
    m.append text = m ∧ tm.add_item text = (tm, false) := by
  constructor
  · simp [ScratchpadManager.append, h]
  · simp [TodoManager.add_item, h]

theorem blank_input_noop_witness :
    pyStrip "  " = "" ∧
    (ScratchpadManager.init 50).append "  " = ScratchpadManager.init 50 ∧
    (TodoManager.init 100).add_item "  " = (TodoManager.init 100, false) := by
  have h := blank_input_noop (ScratchpadManager.init 50) (TodoManager.init 100) "  "
    (by decide)
  exact ⟨by decide, h.1, h.2⟩

theorem lastN_length (n : Nat) (l : List α) :
    (lastN n l).length = l.length - (l.length - n) := by
  simp [lastN]

theorem lastN_lastN_append (n : Nat) (l r : List α) :
    lastN n (lastN n l ++ r) = lastN n (l ++ r) := by
  unfold lastN
  have key : l.drop (l.length - n) ++ r = (l ++ r).drop (l.length - n) := by
    rw [List.drop_append_eq_append_drop]
    have h0 : l.length - n - l.length = 0 := by omega
    rw [h0, List.drop_zero]
  rw [key, List.drop_drop]
  congr 1
  simp only [List.length_drop, List.length_append]
  omega

theorem append_step (m : ScratchpadManager) (n : Nat) (e : String)
    (hmax : m.max_items = (n : Int)) (hn : 1 ≤ n) (hlen : m.content.length ≤ n)
    (he : pyStrip e ≠ "") :
    (m.append e).content = lastN n (m.content ++ [pyStrip e]) ∧
    (m.append e).max_items = (n : Int) := by
  unfold ScratchpadManager.append
  rw [if_neg he]
  simp only [hmax]
  constructor
  · by_cases hc : ((m.content ++ [pyStrip e]).length : Int) > (n : Int)
    · rw [if_pos hc]
      unfold pySliceFrom
      rw [List.length_append] at hc ⊢
      simp only [List.length_singleton] at hc ⊢
      have hgt : m.content.length + 1 > n := by exact_mod_cast hc
      have heq : m.content.length = n := by omega
      rw [if_pos (by omega : -(n : Int) < 0)]
      unfold lastN
      rw [List.length_append, List.length_singleton]
      congr 1
      rw [heq]
      omega
    · rw [if_neg hc]
      rw [List.length_append, List.length_singleton] at hc
      have hle : m.content.length + 1 ≤ n := by omega
      unfold lastN
      rw [List.length_append, List.length_singleton]
      have h0 : m.content.length + 1 - n = 0 := by omega
      rw [h0, List.drop_zero]
  · trivial

theorem appendAll_content (n : Nat) (hn : 1 ≤ n) : ∀ (es : List String) (m : ScratchpadManager),
    m.max_items = (n : Int) → m.content.length ≤ n → (∀ e ∈ es, pyStrip e ≠ "") →
    (es.foldl ScratchpadManager.append m).content = lastN n (m.content ++ es.map pyStrip) := by
  intro es
  induction es with
  | nil =>
    intro m _ hlen _
    simp only [List.foldl_nil, List.map_nil, List.append_nil]
    unfold lastN
    rw [Nat.sub_eq_zero_of_le hlen, List.drop_zero]
  | cons e es ih =>
    intro m hmax hlen hne
    simp only [List.foldl_cons, List.map_cons]
    have hstep := append_step m n e hmax hn hlen (hne e (by simp))
    have hbound : (m.append e).content.length ≤ n := by
      rw [hstep.1, lastN_length]
      omega
    rw [ih (m.append e) hstep.2 hbound (fun x hx => hne x (by simp [hx])), hstep.1,
      lastN_lastN_append]
    congr 1
    simp

/-- C6 (counterexample): with capacity `max_items = 0`, the bound-enforcing
slice `content[-max_items:]` is `content[-0:]`, the whole list, so the
capacity is never enforced: appending `0 + 5` non-blank entries leaves 5
entries, not 0. -/
theorem scratchpad_capacity_zero_cex :
    (ScratchpadManager.init 0).max_items = 0 ∧
    (["a", "b", "c", "d", "e"].foldl ScratchpadManager.append
        (ScratchpadManager.init 0)).content = ["a", "b", "c", "d", "e"] := by
  refine ⟨by decide, by decide⟩

/-- C6 (amended, for a positive capacity `n ≥ 1`): appending `n + 5`
non-blank entries to a fresh scratchpad leaves exactly `n` entries — the
5 oldest evicted and the survivors (stored stripped) in insertion order —
and, more generally, an append never takes the store above `n` entries. -/
theorem scratchpad_capacity (n : Nat) (hn : 1 ≤ n) (entries : List String)
    (hlen : entries.length = n + 5) (hne : ∀ e ∈ entries, pyStrip e ≠ "") :
    (entries.foldl ScratchpadManager.append (ScratchpadManager.init (n : Int))).content =
      (entries.map pyStrip).drop 5 ∧
    (entries.foldl ScratchpadManager.append
      (ScratchpadManager.init (n : Int))).content.length = n ∧
    (∀ (m : ScratchpadManager) (t : String), m.max_items = (n : Int) →
      m.content.length ≤ n → (m.append t).content.length ≤ n) := by
  have h := appendAll_content n hn entries (ScratchpadManager.init (n : Int)) rfl
    (by simp [ScratchpadManager.init]) hne
  have hinit : (ScratchpadManager.init (n : Int)).content ++ entries.map pyStrip =
      entries.map pyStrip := by
    simp [ScratchpadManager.init]
  rw [hinit] at h
  have hcontent :
      (entries.foldl ScratchpadManager.append (ScratchpadManager.init (n : Int))).content =
        (entries.map pyStrip).drop 5 := by
    rw [h]
    unfold lastN
    rw [List.length_map, hlen]
    congr 1
    omega
  refine ⟨hcontent, ?_, ?_⟩
  · rw [hcontent, List.length_drop, List.length_map, hlen]
    omega
  · intro m t hmax hlenm
    by_cases hblank : pyStrip t = ""
    · simpa [ScratchpadManager.append, hblank] using hlenm
    · have hstep := append_step m n t hmax hn hlenm hblank
      rw [hstep.1, lastN_length]
      omega

theorem scratchpad_capacity_witness :
    (["a", "b", "c", "d", "e", "f"].foldl ScratchpadManager.append
        (ScratchpadManager.init 1)).content = ["f"] ∧
    (["a", "b", "c", "d", "e", "f"].foldl ScratchpadManager.append
        (ScratchpadManager.init 1)).content.length = 1 := by
  have h := scratchpad_capacity 1 (by decide) ["a", "b", "c", "d", "e", "f"]
    (by decide) (by decide)
  exact ⟨h.1.trans (by decide), h.2.1⟩

/-- C2: whenever the parser finds no tagged action block at all
(`found_action_attempt = false`), `TurnExecutor.execute` returns — for
any action handler in any state — the record with no executed actions,
the single environment response saying no action was attempted,
`has_error = true` and `done = true`, and the handler state untouched. -/
theorem execute_no_attempt {σ : Type} (handle : σ → Action → σ × Except String (String × Bool))
    (get_and_clear : σ → List (String × Trajectory) × σ) (s : σ) (llm_output : String)
    (h : (parse_response llm_output).2.2 = false) :
    execute handle get_and_clear s llm_output =
      ({ actions_executed := [], env_responses := ["No actions were attempted."],
         has_error := true, done := true, finish_message := none,
         agent_trajectories := none }, s) := by
  simp [execute, h]

theorem execute_no_attempt_witness :
    (parse_response "hello").2.2 = false ∧
    execute (fun (s : Unit) (_ : Action) => (s, Except.ok ("", false)))
        (fun (s : Unit) => ([], s)) () "hello" =
      ({ actions_executed := [], env_responses := ["No actions were attempted."],
         has_error := true, done := true, finish_message := none,
         agent_trajectories := none }, ()) :=
  ⟨by decide, execute_no_attempt _ _ () "hello" (by decide)⟩

theorem parseStep_foldl (blocks : List (String × String)) :
    ∀ (as : List Action) (es : List String),
    (blocks.foldl parseStep (as, es)).1 = as ++ blocks.filterMap blockAction ∧
    (blocks.foldl parseStep (as, es)).2 = es ++ blocks.filterMap blockError := by
  induction blocks with
  | nil => intro as es; simp
  | cons b bs ih =>
    intro as es
    cases hp : parse_action b.1 (pyStrip b.2) with
    | ok oa =>
      cases oa with
      | some a =>
        simp only [List.foldl_cons, parseStep, hp, List.filterMap_cons, blockAction,
          blockError]
        refine ⟨?_, ?_⟩
        · rw [(ih (as ++ [a]) es).1]
          simp
        · rw [(ih (as ++ [a]) es).2]
      | none =>
        simp only [List.foldl_cons, parseStep, hp, List.filterMap_cons, blockAction,
          blockError]
        exact ih as es
    | error e =>
      simp only [List.foldl_cons, parseStep, hp, List.filterMap_cons, blockAction,
        blockError]
      refine ⟨?_, ?_⟩
      · rw [(ih as (es ++ [formatParseError b.1 e])).1]
      · rw [(ih as (es ++ [formatParseError b.1 e])).2]
        simp

/-- C5 (counterexample): a tagged block whose action type is unknown but
whose content is ill-formed XML contributes a parseErrors entry (and no
action), because `ET.fromstring` runs before the action-type dispatch —
so an unknown-type block does not always yield "neither an action nor a
parseErrors entry". -/
theorem parse_unknown_type_error_cex :
    (parse_response "<action type=\"bogus\"><bar</action>").2.1 =
      ["Failed to parse bogus action: not well-formed (invalid token)"] ∧
    (parse_response "<action type=\"bogus\"><bar</action>").1 = [] := by
  refine ⟨by decide, by decide⟩

/-- C5 (amended): `parse_response` treats every found block independently:
the returned actions are exactly the per-block successes in order, the
parseErrors entries are exactly the per-block failures in order (one per
malformed block, including blocks missing a required field),
`found_action_attempt` is true exactly when at least one block was found,
and a block with an unknown action type whose content is well-formed
yields neither an action nor a parseErrors entry. -/
theorem parse_response_per_block (llm_output : String) :
    (parse_response llm_output).1 = (findBlocks llm_output.data).filterMap blockAction ∧
    (parse_response llm_output).2.1 =
      (findBlocks llm_output.data).filterMap blockError ∧
    (parse_response llm_output).2.2 = !(findBlocks llm_output.data).isEmpty ∧
    (∀ ty content : String, ty ≠ "query_agent" → ty ≠ "update_scratchpad" →
      ty ≠ "update_todo" → ty ≠ "finish_stage" →
      (∃ fs, parseFields (pyStrip content).data = .ok fs) →
      blockAction (ty, content) = none ∧ blockError (ty, content) = none) := by
  refine ⟨?_, ?_, rfl, ?_⟩
  · exact (parseStep_foldl (findBlocks llm_output.data) [] []).1
  · exact (parseStep_foldl (findBlocks llm_output.data) [] []).2
  · intro ty content h1 h2 h3 h4 hfs
    obtain ⟨fs, hfs⟩ := hfs
    simp only [blockAction, blockError, parse_action, hfs, h1, h2, h3, h4, if_false]
    exact ⟨trivial, trivial⟩

theorem parse_response_per_block_witness :
    blockAction ("bogus", "<a>b</a>") = none ∧ blockError ("bogus", "<a>b</a>") = none :=
  (parse_response_per_block "x").2.2.2 "bogus" "<a>b</a>" (by decide) (by decide)
    (by decide) (by decide) ⟨[("a", some "b")], rfl⟩

end Sapthame

namespace Saptha

theorem parallelStep_foldl (pairs : List (AgentInfo × Except String AgentResponse)) :
    ∀ (acc1 : List AgentResponse) (acc2 : List String),
    (pairs.foldl parallelStep (acc1, acc2)).1 =
      acc1 ++ (pairs.map Prod.snd).filterMap Except.toOption := by
  induction pairs with
  | nil => intro acc1 acc2; simp
  | cons p ps ih =>
    intro acc1 acc2
    cases hp : p.2 with
    | error e =>
      simp only [List.foldl_cons, parallelStep, hp, List.map_cons, List.filterMap_cons,
        Except.toOption]
      exact ih acc1 (acc2 ++ [p.1.id])
    | ok r =>
      simp only [List.foldl_cons, parallelStep, hp, List.map_cons, List.filterMap_cons,
        Except.toOption]
      rw [ih (acc1 ++ [r]) acc2]
      simp

theorem toOption_none_iff (o : Except String AgentResponse) :
    Except.toOption o = none ↔ o.isOk = false := by
  cases o <;> simp [Except.toOption, Except.isOk, Except.toBool]

theorem content_infix_aggregate (responses : List AgentResponse) (r : AgentResponse)
    (hr : r ∈ responses) :
    r.content.data <:+: (aggregate_responses responses).data := by
  unfold aggregate_responses
  match responses, hr with
  | [x], hr =>
    simp only [List.mem_singleton] at hr
    subst hr
    exact ⟨[], [], by simp⟩
  | x :: y :: rest, hr =>
    have hfmt : ("Agent " ++ r.agent_id ++ " Response:\n" ++ r.content) ∈
        (x :: y :: rest).map
          (fun q => "Agent " ++ q.agent_id ++ " Response:\n" ++ q.content) :=
      List.mem_map_of_mem _ hr
    have h1 := mem_pyJoin_sub "\n\n---\n\n" _ _ hfmt
    have h0 : r.content.data <:+:
        ("Agent " ++ r.agent_id ++ " Response:\n" ++ r.content).data :=
      infix_of_append_left ("Agent " ++ r.agent_id ++ " Response:\n").data r.content.data
    exact infix_trans h0 h1

/-- C3: in parallel coordination over a non-empty agent list (results
paired to agents by index), the task fails exactly when every agent's
outcome is a failure; when at least one agent succeeds, the final answer
is the aggregation of exactly the successful responses in order — it
contains every successful agent's content, and is computed from the
successful responses alone, so nothing of a failed agent enters it — and
every successful outcome is collected regardless of failures before or
after it. -/
theorem execute_parallel_spec (agents : List AgentInfo)
    (outcomes : List (Except String AgentResponse)) (hne : agents ≠ [])
    (hlen : outcomes.length = agents.length) :
    ((execute_parallel agents outcomes).isOk = false ↔
      ∀ o ∈ outcomes, o.isOk = false) ∧
    ((∃ o ∈ outcomes, o.isOk = true) →
      execute_parallel agents outcomes =
        .ok (aggregate_responses (outcomes.filterMap Except.toOption)) ∧
      ∀ r ∈ outcomes.filterMap Except.toOption,
        r.content.data <:+:
          (aggregate_responses (outcomes.filterMap Except.toOption)).data) ∧
    (process_parallel (agents.zip outcomes)).1 = outcomes.filterMap Except.toOption := by
  have hsucc : (process_parallel (agents.zip outcomes)).1 =
      outcomes.filterMap Except.toOption := by
    unfold process_parallel
    rw [parallelStep_foldl (agents.zip outcomes) [] []]
    rw [List.map_snd_zip agents outcomes (le_of_eq hlen)]
    simp
  refine ⟨?_, ?_, hsucc⟩
  · simp only [execute_parallel, hsucc]
    by_cases hemp : (outcomes.filterMap Except.toOption).isEmpty
    · rw [if_pos hemp]
      simp only [Except.isOk, Except.toBool]
      rw [List.isEmpty_iff, List.filterMap_eq_nil_iff] at hemp
      constructor
      · intro _ o ho
        exact (toOption_none_iff o).mp (hemp o ho)
      · intro _
        trivial
    · rw [if_neg hemp]
      simp only [Except.isOk, Except.toBool]
      rw [List.isEmpty_iff, List.filterMap_eq_nil_iff] at hemp
      push_neg at hemp
      obtain ⟨o, ho, hoo⟩ := hemp
      constructor
      · intro hfalse
        cases hfalse
      · intro hall
        exact absurd ((toOption_none_iff o).mpr (hall o ho)) hoo
  · intro ⟨o, ho, hok⟩
    have hneq : ¬(outcomes.filterMap Except.toOption).isEmpty := by
      rw [List.isEmpty_iff, List.filterMap_eq_nil_iff]
      push_neg
      refine ⟨o, ho, ?_⟩
      intro hn
      rw [(toOption_none_iff o).mp hn] at hok
      cases hok
    refine ⟨?_, ?_⟩
    · simp only [execute_parallel, hsucc]
      rw [if_neg hneq]
    · intro r hr
      exact content_infix_aggregate _ r hr

theorem execute_parallel_spec_witness :
    execute_parallel pAgents pOutcomes =
      .ok "Agent A Response:\nra\n\n---\n\nAgent C Response:\nrc" :=
  (((execute_parallel_spec pAgents pOutcomes (by decide) (by decide)).2.1
    ⟨Except.ok { agent_id := "A", content := "ra" }, by simp [pOutcomes], by rfl⟩).1).trans
    (by rfl)

theorem seqLoop_cons_err (call : AgentInfo → Message → Except String AgentResponse)
    (orig : String) (msg : Message) (a : AgentInfo) (rest : List AgentInfo) (e : String)
    (hca : call a msg = .error e) :
    seqLoop call orig msg (a :: rest) =
      (.error ("Critical agent " ++ a.id ++ " failed: " ++ e), [a.id]) := by
  simp [seqLoop, hca]

theorem seqLoop_cons_ok_ne (call : AgentInfo → Message → Except String AgentResponse)
    (orig : String) (msg : Message) (a : AgentInfo) (rest : List AgentInfo)
    (r : AgentResponse) (hca : call a msg = .ok r) (hrest : rest ≠ []) :
    seqLoop call orig msg (a :: rest) =
      ((seqLoop call orig (nextMessage r.content orig) rest).1,
       a.id :: (seqLoop call orig (nextMessage r.content orig) rest).2) := by
  cases rest with
  | nil => exact absurd rfl hrest
  | cons q qs => simp [seqLoop, hca]

/-- C4: in sequential coordination, when every agent before `bad` succeeds
along the actual message chain and `bad` raises a client error, the whole
task fails with an error naming `bad` and its originating error message,
and the invoked agents are exactly those up to and including `bad` — no
later agent is ever invoked. -/
theorem execute_sequential_fail_fast
    (call : AgentInfo → Message → Except String AgentResponse) (message : Message)
    (pre post : List AgentInfo) (bad : AgentInfo) (msgb : Message) (e : String)
    (hchain : chainRun call message.content message pre = some msgb)
    (hbad : call bad msgb = .error e) :
    execute_sequential call message (pre ++ bad :: post) =
      (.error ("Critical agent " ++ bad.id ++ " failed: " ++ e),
       pre.map (fun a => a.id) ++ [bad.id]) := by
  unfold execute_sequential
  suffices h : ∀ (pre : List AgentInfo) (msg : Message),
      chainRun call message.content msg pre = some msgb →
      seqLoop call message.content msg (pre ++ bad :: post) =
        (.error ("Critical agent " ++ bad.id ++ " failed: " ++ e),
         pre.map (fun a => a.id) ++ [bad.id]) from h pre message hchain
  intro pre
  induction pre with
  | nil =>
    intro msg hc
    simp only [chainRun, Option.some.injEq] at hc
    subst hc
    rw [List.nil_append]
    rw [seqLoop_cons_err call message.content msg bad post e hbad]
    simp
  | cons a pre ih =>
    intro msg hc
    simp only [chainRun] at hc
    cases hca : call a msg with
    | error e2 => rw [hca] at hc; simp at hc
    | ok r =>
      rw [hca] at hc
      simp only [] at hc
      rw [List.cons_append,
        seqLoop_cons_ok_ne call message.content msg a (pre ++ bad :: post) r hca
          (by simp),
        ih (nextMessage r.content message.content) hc]
      simp

theorem execute_sequential_fail_fast_witness :
    execute_sequential wCall { content := "task", role := "user" }
        ([] ++ (⟨"A", ""⟩ : AgentInfo) :: [⟨"B", ""⟩]) =
      (.error "Critical agent A failed: boom", ["A"]) :=
  (execute_sequential_fail_fast wCall { content := "task", role := "user" } [] [⟨"B", ""⟩]
    ⟨"A", ""⟩ { content := "task", role := "user" } "boom" rfl rfl).trans (by rfl)

/-- C7 (counterexample): a 4xx response is NOT surfaced without retry —
the tenacity decorator has no exception filter, so the `A2AClientError`
raised for HTTP 400 on attempt 1 is retried, and the caller sees the
success of attempt 2 instead of the 4xx error. -/
theorem send_message_4xx_retried_cex :
    attemptOnce "agent-1" (iosCex 1) =
      .error (.clientError "Unexpected error: Client error: 400 - bad request") ∧
    send_message iosCex "agent-1" =
      (.ok { agent_id := "agent-1", content := "hi" }, 2, [1]) := by
  refine ⟨by rfl, by rfl⟩

/-- C7 (amended): every failure of the `send_message` body — transport
failures (timeout, connection error, 5xx) as well as 4xx responses and
malformed envelopes — is retried with bounded attempts (at most 3) and
the tenacity exponential backoff before the last error surfaces to the
caller; a success ends the attempts immediately; timeouts and connection
errors are the outcomes classified agent-unavailable. -/
theorem send_message_retry_policy (ios : Nat → TransportAttempt) (aid : String) :
    ((attemptOnce aid (ios 1)).isOk = true →
      send_message ios aid = (attemptOnce aid (ios 1), 1, [])) ∧
    ((attemptOnce aid (ios 1)).isOk = false → (attemptOnce aid (ios 2)).isOk = true →
      send_message ios aid =
        (attemptOnce aid (ios 2), 2, [wait_exponential 1 1 10 1])) ∧
    ((attemptOnce aid (ios 1)).isOk = false → (attemptOnce aid (ios 2)).isOk = false →
      send_message ios aid =
        (attemptOnce aid (ios 3), 3,
         [wait_exponential 1 1 10 1, wait_exponential 1 1 10 2])) ∧
    (∀ id2 : String,
      attemptOnce id2 TransportAttempt.timeout =
        .error (.unavailable ("Agent " ++ id2 ++ " timed out")) ∧
      attemptOnce id2 TransportAttempt.connectError =
        .error (.unavailable ("Cannot connect to agent " ++ id2))) := by
  refine ⟨?_, ?_, ?_, ?_⟩
  · intro h1
    cases hf1 : attemptOnce aid (ios 1) with
    | ok r => simp [send_message, hf1]
    | error e => rw [hf1] at h1; simp [Except.isOk, Except.toBool] at h1
  · intro h1 h2
    cases hf1 : attemptOnce aid (ios 1) with
    | ok r => rw [hf1] at h1; simp [Except.isOk, Except.toBool] at h1
    | error e1 =>
      cases hf2 : attemptOnce aid (ios 2) with
      | ok r => simp [send_message, hf1, hf2]
      | error e2 => rw [hf2] at h2; simp [Except.isOk, Except.toBool] at h2
  · intro h1 h2
    cases hf1 : attemptOnce aid (ios 1) with
    | ok r => rw [hf1] at h1; simp [Except.isOk, Except.toBool] at h1
    | error e1 =>
      cases hf2 : attemptOnce aid (ios 2) with
      | ok r => rw [hf2] at h2; simp [Except.isOk, Except.toBool] at h2
      | error e2 =>
        cases hf3 : attemptOnce aid (ios 3) with
        | ok r => simp [send_message, hf1, hf2, hf3]
        | error e3 => simp [send_message, hf1, hf2, hf3]
  · intro id2
    exact ⟨rfl, rfl⟩

theorem send_message_retry_policy_witness :
    send_message iosCex "agent-1" =
      (attemptOnce "agent-1" (iosCex 2), 2, [wait_exponential 1 1 10 1]) :=
  (send_message_retry_policy iosCex "agent-1").2.1 (by rfl) (by rfl)

end Saptha
